import Mathlib

/-!
Verification of the `tkym-windows` window bridge (`src/lib.rs`).

The development shallowly embeds the parts of the crate the specification
talks about: the per-window state (`Window`, `Mouse`, geometry values), the
event-application loop of `Window::process_messages`, the message decoding
performed by `window_proc`, and the row orientation of the
`Window::swap_buffers` blit.  Machine words (`WPARAM`, `LPARAM`, `HWND`) are
modelled as their unsigned bit patterns (`Nat`); the mpsc channel between
`window_proc` and `process_messages` is modelled by the list of events sent
during one invocation of the procedure.
-/

set_option autoImplicit false

namespace Tkym

/-- `common::geo::Vector2`, as used for `Mouse.pos`: field-by-field mutable
2D point.  The coordinates written to it come from `u32` event payloads. -/
structure Vector2 where
  x : Nat
  y : Nat
deriving DecidableEq

/-- `common::geo::Rect2` as used by `Window.size`: width/height pair. -/
structure Rect2 where
  width  : Nat
  height : Nat
deriving DecidableEq

/-- `enum MouseButton { Left, Right, Middle, MB4, MB5 }` from `lib.rs`. -/
inductive MouseButton where
  | Left
  | Right
  | Middle
  | MB4
  | MB5
deriving DecidableEq

/-- `enum ButtonState { Up, Down }` from `lib.rs`. -/
inductive ButtonState where
  | Up
  | Down
deriving DecidableEq

/-- `enum WindowEvent` from `lib.rs`: the typed events sent over the channel
from `window_proc` to `Window::process_messages`. -/
inductive WindowEvent where
  | MouseMoved (x y : Nat)
  | MouseButtonChanged (button : MouseButton) (state : ButtonState)
  | WindowResized (width height : Nat)
deriving DecidableEq

/-- `struct Mouse` from `lib.rs`. -/
structure Mouse where
  pos   : Vector2
  left  : Bool
  right : Bool
deriving DecidableEq

/-- `impl Default for Mouse`: position (0,0), both buttons up. -/
def Mouse.default : Mouse :=
  { pos := ⟨0, 0⟩, left := false, right := false }

/-- The observable (non-handle) fields of `struct Window`: `minimized`,
`mouse` and `size`.  The OS handles, device context and channel endpoints
carry no state the claims are about. -/
structure Window where
  minimized : Bool
  mouse     : Mouse
  size      : Rect2
deriving DecidableEq

/-- The state part of `Window::new`: `minimized = false`,
`mouse = Mouse::default()`, `size = Rect2::new(900, 600)`. -/
def Window.new : Window :=
  { minimized := false, mouse := Mouse.default, size := ⟨900, 600⟩ }

/-- One iteration of the `while let Ok(event) = self.event_receiver.try_recv()`
loop of `Window::process_messages`: apply a single received event to the
window state. -/
def applyEvent (w : Window) (e : WindowEvent) : Window :=
  match e with
  | .MouseMoved x y =>
      { w with mouse := { w.mouse with pos := ⟨x, y⟩ } }
  | .WindowResized width height =>
      { w with size := { height := height, width := width } }
  | .MouseButtonChanged button state =>
      match button, state with
      | .Left, .Up    => { w with mouse := { w.mouse with left := false } }
      | .Left, .Down  => { w with mouse := { w.mouse with left := true } }
      | .Right, .Up   => { w with mouse := { w.mouse with right := false } }
      | .Right, .Down => { w with mouse := { w.mouse with right := true } }
      | _, _          => w

/-- The event-draining loop of `Window::process_messages`: the queued events
are applied in the order they were received. -/
def process_messages (w : Window) (events : List WindowEvent) : Window :=
  events.foldl applyEvent w

/-! ### Message decoding (`window_proc`) -/

/-- `WM_CREATE`. -/
def WM_CREATE : Nat := 0x0001
/-- `WM_SIZE`. -/
def WM_SIZE : Nat := 0x0005
/-- `WM_MOUSEMOVE`. -/
def WM_MOUSEMOVE : Nat := 0x0200
/-- `WM_LBUTTONDOWN`. -/
def WM_LBUTTONDOWN : Nat := 0x0201
/-- `WM_LBUTTONUP`. -/
def WM_LBUTTONUP : Nat := 0x0202
/-- `WM_RBUTTONDOWN`. -/
def WM_RBUTTONDOWN : Nat := 0x0204
/-- `WM_RBUTTONUP`. -/
def WM_RBUTTONUP : Nat := 0x0205

/-- Little-endian byte `i` of the unsigned bit pattern `n`, as produced by
`isize::to_le_bytes`. -/
def leByte (n i : Nat) : Nat := n / 256 ^ i % 256

/-- `transmute::<[u8; 2], u16>([b0, b1])`: reassemble two little-endian
bytes into an unsigned 16-bit value. -/
def u16OfLeBytes (b0 b1 : Nat) : Nat := b0 + 256 * b1

/-- The result value of one `window_proc` invocation: either the literal
`LRESULT(0)` the procedure initializes `result` with, or the value returned
by `DefWindowProcA` called with the recorded arguments. -/
inductive LResult where
  | zero
  | defWindowProc (handle message wparam lparam : Nat)
deriving DecidableEq

/-- The observable outcome of one `window_proc` invocation: the events sent
on the window's channel (in order) and the returned `LRESULT`. -/
structure ProcOutput where
  sent   : List WindowEvent
  result : LResult
deriving DecidableEq

/-- `window_proc` from `lib.rs`.  `channelRegistered` models whether
`GetPropA(win_handle, "event_channel")` yields a non-null sender (the
`get_event_channel` closure); `clientRect` models the `(right, bottom)` pair
that `GetClientRect` reports for the window at this moment, which the
`WM_SIZE` arm re-queries instead of decoding `lparam`.  `lparam` and `wparam`
are the unsigned bit patterns of the two machine-word parameters; the
`WM_MOUSEMOVE` arm reassembles `lparam`'s little-endian bytes 0–1 and 2–3
into two `u16`s, i.e. its low 16 bits and its next 16 bits. -/
def window_proc (handle message wparam lparam : Nat)
    (channelRegistered : Bool) (clientRect : Nat × Nat) : ProcOutput :=
  if message = WM_CREATE then
    ⟨[], .zero⟩
  else if message = WM_MOUSEMOVE then
    if channelRegistered then
      ⟨[.MouseMoved (u16OfLeBytes (leByte lparam 0) (leByte lparam 1))
                    (u16OfLeBytes (leByte lparam 2) (leByte lparam 3))],
       .zero⟩
    else ⟨[], .zero⟩
  else if message = WM_SIZE then
    if channelRegistered then
      ⟨[.WindowResized clientRect.1 clientRect.2], .zero⟩
    else ⟨[], .zero⟩
  else if message = WM_LBUTTONDOWN then
    if channelRegistered then
      ⟨[.MouseButtonChanged .Left .Down], .zero⟩
    else ⟨[], .zero⟩
  else if message = WM_LBUTTONUP then
    if channelRegistered then
      ⟨[.MouseButtonChanged .Left .Up], .zero⟩
    else ⟨[], .zero⟩
  else if message = WM_RBUTTONDOWN then
    if channelRegistered then
      ⟨[.MouseButtonChanged .Right .Down], .zero⟩
    else ⟨[], .zero⟩
  else if message = WM_RBUTTONUP then
    if channelRegistered then
      ⟨[.MouseButtonChanged .Right .Up], .zero⟩
    else ⟨[], .zero⟩
  else
    ⟨[], .defWindowProc handle message wparam lparam⟩

/-- The message codes `window_proc` recognizes besides `WM_CREATE`: the ones
that decode into a `WindowEvent`. -/
def recognizedEventCodes : List Nat :=
  [WM_MOUSEMOVE, WM_SIZE, WM_LBUTTONDOWN, WM_LBUTTONUP,
   WM_RBUTTONDOWN, WM_RBUTTONUP]

/-! ### The `swap_buffers` blit -/

/-- Documented GDI semantics of a full-rectangle `StretchDIBits` copy with
equal source and destination extents: with a positive `biHeight` the DIB is
bottom-up (buffer row 0 is the bottom of the image), with a negative
`biHeight` it is top-down (buffer row 0 is the top).  `dibDestRow` gives the
destination row (counted from the top of the surface) that source buffer row
`srcRow` is copied to. -/
def dibDestRow (biHeight : Int) (height srcRow : Nat) : Nat :=
  if biHeight < 0 then srcRow else height - 1 - srcRow

/-- `height as i32`: the wrapping `u32 → i32` cast, reinterpreting the low
32 bits of the value as a two's-complement signed integer. -/
def i32Cast (n : Nat) : Int :=
  if n % 2 ^ 32 < 2 ^ 31 then ((n % 2 ^ 32 : Nat) : Int)
  else ((n % 2 ^ 32 : Nat) : Int) - 2 ^ 32

/-- The `biHeight` field `Window::swap_buffers` places in its
`BITMAPINFOHEADER`: `-(height as i32)`, the negation of the wrapping cast of
the window's current height.  (At the one unrepresentable point,
`height ≡ 2^31`, the Rust negation itself overflows `i32`; the claims below
stay away from it.) -/
def swap_buffers_biHeight (w : Window) : Int :=
  -(i32Cast w.size.height)

/-- Row mapping realized by `Window::swap_buffers`: the destination row that
source buffer row `srcRow` lands on, per `dibDestRow` at the `biHeight` the
call passes. -/
def swap_buffers_destRow (w : Window) (srcRow : Nat) : Nat :=
  dibDestRow (swap_buffers_biHeight w) w.size.height srcRow

/-! ### Window Registry (spec §4.1) -/

/-- Modelled from the spec: the Window Registry of §4.1 is absent from
`src/lib.rs` (the source reaches per-window state through an mpsc channel
stored as a window property instead); the spec describes it as "a mapping
from Window Identifier to Window State". -/
abbrev Registry : Type := List (Nat × Window)

/-- Modelled from the spec: the error conditions `Registry` operations
signal (§4.1, §7). -/
inductive RegistryError where
  | NotFound
  | BorrowConflict
deriving DecidableEq

/-- Modelled from the spec: `insert(id, initial_state)` "creates a new
entry" for the identifier. -/
def Registry.insert (r : Registry) (id : Nat) (s : Window) : Registry :=
  (id, s) :: r

/-- The set of identifiers with a live entry, used to state "an identifier
never inserted". -/
def Registry.ids (r : Registry) : List Nat :=
  List.map Prod.fst r

/-- Modelled from the spec: `read(id)` "returns a copy of the current
state; signals NotFound if the window has no entry". -/
def Registry.read : Registry → Nat → Except RegistryError Window
  | [], _ => .error .NotFound
  | (i, s) :: rest, id => if i = id then .ok s else Registry.read rest id

/-! ### Helper lemmas -/

/-- The accumulator of `lastMouseMoved`: keep the payload of the latest
`MouseMoved` seen so far. -/
def lastMouseMovedStep (acc : Option (Nat × Nat)) (e : WindowEvent) :
    Option (Nat × Nat) :=
  match e with
  | .MouseMoved x y => some (x, y)
  | _ => acc

/-- The `(x, y)` of the last `MouseMoved` event of the sequence, if any. -/
def lastMouseMoved (events : List WindowEvent) : Option (Nat × Nat) :=
  events.foldl lastMouseMovedStep none

/-- The latest recorded state of one button: `lastButton b` folds to the
`ButtonState` of the most recent `MouseButtonChanged` event for button `b`,
ignoring every other event. -/
def lastButtonStep (b : MouseButton) (acc : Option ButtonState)
    (e : WindowEvent) : Option ButtonState :=
  match e with
  | .MouseButtonChanged b' st => if b' = b then some st else acc
  | _ => acc

/-- The state carried by the last `MouseButtonChanged` event for button `b`
in the sequence, if any. -/
def lastButton (b : MouseButton) (events : List WindowEvent) :
    Option ButtonState :=
  events.foldl (lastButtonStep b) none

theorem foldl_lastMouseMovedStep_acc (events : List WindowEvent)
    (acc : Option (Nat × Nat)) :
    events.foldl lastMouseMovedStep acc =
      Option.elim (events.foldl lastMouseMovedStep none) acc some := by
  induction events generalizing acc with
  | nil => rfl
  | cons e es ih =>
    cases e with
    | MouseMoved x y =>
      simp only [List.foldl_cons, lastMouseMovedStep]
      rw [ih (some (x, y))]
      cases es.foldl lastMouseMovedStep none <;> rfl
    | MouseButtonChanged b st =>
      simp only [List.foldl_cons, lastMouseMovedStep]
      exact ih acc
    | WindowResized w h =>
      simp only [List.foldl_cons, lastMouseMovedStep]
      exact ih acc

theorem foldl_lastButtonStep_acc (b : MouseButton) (events : List WindowEvent)
    (acc : Option ButtonState) :
    events.foldl (lastButtonStep b) acc =
      Option.elim (events.foldl (lastButtonStep b) none) acc some := by
  induction events generalizing acc with
  | nil => rfl
  | cons e es ih =>
    cases e with
    | MouseMoved x y =>
      simp only [List.foldl_cons, lastButtonStep]
      exact ih acc
    | MouseButtonChanged b' st =>
      simp only [List.foldl_cons, lastButtonStep]
      by_cases hb : b' = b
      · simp only [if_pos hb]
        rw [ih (some st)]
        cases es.foldl (lastButtonStep b) none <;> rfl
      · simp only [if_neg hb]
        exact ih acc
    | WindowResized w h =>
      simp only [List.foldl_cons, lastButtonStep]
      exact ih acc

/-- Every event-processing branch of `process_messages` leaves `minimized`
untouched. -/
theorem applyEvent_minimized (w : Window) (e : WindowEvent) :
    (applyEvent w e).minimized = w.minimized := by
  cases e with
  | MouseMoved x y => rfl
  | WindowResized width height => rfl
  | MouseButtonChanged b st => cases b <;> cases st <;> rfl

/-- Every event other than a `MouseMoved` leaves the mouse position as it
was. -/
theorem applyEvent_mouse_pos (w : Window) (e : WindowEvent)
    (h : ∀ x y, e ≠ .MouseMoved x y) :
    (applyEvent w e).mouse.pos = w.mouse.pos := by
  cases e with
  | MouseMoved x y => exact absurd rfl (h x y)
  | WindowResized width height => rfl
  | MouseButtonChanged b st => cases b <;> cases st <;> rfl

/-- Every event other than a Left `MouseButtonChanged` leaves the `left`
flag as it was. -/
theorem applyEvent_left (w : Window) (e : WindowEvent)
    (h : ∀ st, e ≠ .MouseButtonChanged .Left st) :
    (applyEvent w e).mouse.left = w.mouse.left := by
  cases e with
  | MouseMoved x y => rfl
  | WindowResized width height => rfl
  | MouseButtonChanged b st =>
    cases b with
    | Left => exact absurd rfl (h st)
    | Right => cases st <;> rfl
    | Middle => cases st <;> rfl
    | MB4 => cases st <;> rfl
    | MB5 => cases st <;> rfl

/-- Every event other than a Right `MouseButtonChanged` leaves the `right`
flag as it was. -/
theorem applyEvent_right (w : Window) (e : WindowEvent)
    (h : ∀ st, e ≠ .MouseButtonChanged .Right st) :
    (applyEvent w e).mouse.right = w.mouse.right := by
  cases e with
  | MouseMoved x y => rfl
  | WindowResized width height => rfl
  | MouseButtonChanged b st =>
    cases b with
    | Left => cases st <;> rfl
    | Right => exact absurd rfl (h st)
    | Middle => cases st <;> rfl
    | MB4 => cases st <;> rfl
    | MB5 => cases st <;> rfl

/-- The mouse position after draining a queue of events is that of the last
`MouseMoved` event, or the starting position if there is none. -/
theorem process_messages_mouse_pos (events : List WindowEvent) (w : Window) :
    (process_messages w events).mouse.pos =
      match lastMouseMoved events with
      | some (x, y) => ⟨x, y⟩
      | none => w.mouse.pos := by
  induction events generalizing w with
  | nil => rfl
  | cons e es ih =>
    rw [show process_messages w (e :: es) =
          process_messages (applyEvent w e) es from rfl, ih]
    cases e with
    | MouseMoved x y =>
      have h1 : lastMouseMoved (WindowEvent.MouseMoved x y :: es) =
          Option.elim (lastMouseMoved es) (some (x, y)) some := by
        rw [show lastMouseMoved (WindowEvent.MouseMoved x y :: es) =
              es.foldl lastMouseMovedStep (some (x, y)) from rfl]
        exact foldl_lastMouseMovedStep_acc es (some (x, y))
      rw [h1]
      cases lastMouseMoved es with
      | none => rfl
      | some p => cases p; rfl
    | WindowResized width height =>
      rw [show lastMouseMoved (WindowEvent.WindowResized width height :: es) =
            lastMouseMoved es from rfl,
          applyEvent_mouse_pos w _ (by intro x y hc; cases hc)]
    | MouseButtonChanged b st =>
      rw [show lastMouseMoved (WindowEvent.MouseButtonChanged b st :: es) =
            lastMouseMoved es from rfl,
          applyEvent_mouse_pos w _ (by intro x y hc; cases hc)]

/-- The `left` flag after draining a queue of events is that of the last
Left-button event, or the starting value if there is none. -/
theorem process_messages_left (events : List WindowEvent) (w : Window) :
    (process_messages w events).mouse.left =
      match lastButton .Left events with
      | some .Down => true
      | some .Up => false
      | none => w.mouse.left := by
  induction events generalizing w with
  | nil => rfl
  | cons e es ih =>
    rw [show process_messages w (e :: es) =
          process_messages (applyEvent w e) es from rfl, ih]
    cases e with
    | MouseMoved x y =>
      rw [show lastButton .Left (WindowEvent.MouseMoved x y :: es) =
            lastButton .Left es from rfl,
          applyEvent_left w _ (by intro st hc; cases hc)]
    | WindowResized width height =>
      rw [show lastButton .Left (WindowEvent.WindowResized width height :: es) =
            lastButton .Left es from rfl,
          applyEvent_left w _ (by intro st hc; cases hc)]
    | MouseButtonChanged b st =>
      cases b with
      | Left =>
        have h1 : lastButton .Left (WindowEvent.MouseButtonChanged .Left st :: es) =
            Option.elim (lastButton .Left es) (some st) some := by
          rw [show lastButton .Left (WindowEvent.MouseButtonChanged .Left st :: es) =
                es.foldl (lastButtonStep .Left) (some st) from rfl]
          exact foldl_lastButtonStep_acc .Left es (some st)
        rw [h1]
        cases lastButton .Left es with
        | none => cases st <;> rfl
        | some st' => cases st' <;> rfl
      | Right =>
        rw [show lastButton .Left (WindowEvent.MouseButtonChanged .Right st :: es) =
              lastButton .Left es from rfl,
            applyEvent_left w _ (by intro st' hc; cases hc)]
      | Middle =>
        rw [show lastButton .Left (WindowEvent.MouseButtonChanged .Middle st :: es) =
              lastButton .Left es from rfl,
            applyEvent_left w _ (by intro st' hc; cases hc)]
      | MB4 =>
        rw [show lastButton .Left (WindowEvent.MouseButtonChanged .MB4 st :: es) =
              lastButton .Left es from rfl,
            applyEvent_left w _ (by intro st' hc; cases hc)]
      | MB5 =>
        rw [show lastButton .Left (WindowEvent.MouseButtonChanged .MB5 st :: es) =
              lastButton .Left es from rfl,
            applyEvent_left w _ (by intro st' hc; cases hc)]

/-- The `right` flag after draining a queue of events is that of the last
Right-button event, or the starting value if there is none. -/
theorem process_messages_right (events : List WindowEvent) (w : Window) :
    (process_messages w events).mouse.right =
      match lastButton .Right events with
      | some .Down => true
      | some .Up => false
      | none => w.mouse.right := by
  induction events generalizing w with
  | nil => rfl
  | cons e es ih =>
    rw [show process_messages w (e :: es) =
          process_messages (applyEvent w e) es from rfl, ih]
    cases e with
    | MouseMoved x y =>
      rw [show lastButton .Right (WindowEvent.MouseMoved x y :: es) =
            lastButton .Right es from rfl,
          applyEvent_right w _ (by intro st hc; cases hc)]
    | WindowResized width height =>
      rw [show lastButton .Right (WindowEvent.WindowResized width height :: es) =
            lastButton .Right es from rfl,
          applyEvent_right w _ (by intro st hc; cases hc)]
    | MouseButtonChanged b st =>
      cases b with
      | Right =>
        have h1 : lastButton .Right (WindowEvent.MouseButtonChanged .Right st :: es) =
            Option.elim (lastButton .Right es) (some st) some := by
          rw [show lastButton .Right (WindowEvent.MouseButtonChanged .Right st :: es) =
                es.foldl (lastButtonStep .Right) (some st) from rfl]
          exact foldl_lastButtonStep_acc .Right es (some st)
        rw [h1]
        cases lastButton .Right es with
        | none => cases st <;> rfl
        | some st' => cases st' <;> rfl
      | Left =>
        rw [show lastButton .Right (WindowEvent.MouseButtonChanged .Left st :: es) =
              lastButton .Right es from rfl,
            applyEvent_right w _ (by intro st' hc; cases hc)]
      | Middle =>
        rw [show lastButton .Right (WindowEvent.MouseButtonChanged .Middle st :: es) =
              lastButton .Right es from rfl,
            applyEvent_right w _ (by intro st' hc; cases hc)]
      | MB4 =>
        rw [show lastButton .Right (WindowEvent.MouseButtonChanged .MB4 st :: es) =
              lastButton .Right es from rfl,
            applyEvent_right w _ (by intro st' hc; cases hc)]
      | MB5 =>
        rw [show lastButton .Right (WindowEvent.MouseButtonChanged .MB5 st :: es) =
              lastButton .Right es from rfl,
            applyEvent_right w _ (by intro st' hc; cases hc)]

/-- `process_messages` never writes the `minimized` field. -/
theorem process_messages_minimized (events : List WindowEvent) (w : Window) :
    (process_messages w events).minimized = w.minimized := by
  induction events generalizing w with
  | nil => rfl
  | cons e es ih =>
    rw [show process_messages w (e :: es) =
          process_messages (applyEvent w e) es from rfl, ih,
        applyEvent_minimized]

/-! ### Claims -/

/-- Claim C1, counterexample to the claim as stated: `swap_buffers` does not
flip the buffer vertically.  On a freshly created window (height 600) the
source row 0 is not sent to the bottom destination row `height - 1`. -/
theorem swap_buffers_flip_refuted :
    ¬ (swap_buffers_destRow Window.new 0 = Window.new.size.height - 1) := by
  decide

/-- Claim C1, amended: for every window height in `[1, 2^31)` — the whole
range on which `height as i32` is the height itself — `swap_buffers` passes
`biHeight = -(height as i32) < 0`, which declares the buffer a top-down DIB,
so the copy preserves vertical orientation: source row `r` maps to
destination row `r`, and in particular source row 0 maps to the top of the
destination, not the bottom. -/
theorem swap_buffers_topdown_rowMap (w : Window) (r : Nat)
    (h0 : 0 < w.size.height) (h1 : w.size.height < 2 ^ 31) :
    swap_buffers_destRow w r = r := by
  unfold swap_buffers_destRow dibDestRow swap_buffers_biHeight i32Cast
  rw [Nat.mod_eq_of_lt (by omega), if_pos (by omega)]

/-- Witness for C1's amended theorem at the freshly created window. -/
theorem swap_buffers_topdown_rowMap_witness :
    (0 < Window.new.size.height ∧ Window.new.size.height < 2 ^ 31) ∧
    swap_buffers_destRow Window.new 0 = 0 :=
  ⟨⟨by decide, by decide⟩,
   swap_buffers_topdown_rowMap Window.new 0 (by decide) (by decide)⟩

/-- Claim C2, counterexample to the claim as stated: a recognized message
(`WM_MOUSEMOVE`) delivered to a window with no registered event channel is
not forwarded to the OS default handler — the procedure's result is not the
`DefWindowProcA` result for these arguments. -/
theorem window_proc_unregistered_refuted :
    ¬ ((window_proc 1 WM_MOUSEMOVE 7 9 false (0, 0)).result =
        .defWindowProc 1 WM_MOUSEMOVE 7 9) := by
  decide

/-- Claim C2, amended: for every recognized non-create message delivered to
a window with no registered event channel, `window_proc` sends no event and
returns `LRESULT(0)` without invoking the OS default handler. -/
theorem window_proc_unregistered_returns_zero
    (handle wparam lparam message : Nat) (rect : Nat × Nat)
    (h : message ∈ recognizedEventCodes) :
    window_proc handle message wparam lparam false rect = ⟨[], .zero⟩ := by
  simp only [recognizedEventCodes, List.mem_cons, List.not_mem_nil,
    or_false] at h
  rcases h with rfl | rfl | rfl | rfl | rfl | rfl <;> rfl

/-- Witness for C2's amended theorem at `WM_MOUSEMOVE`. -/
theorem window_proc_unregistered_returns_zero_witness :
    WM_MOUSEMOVE ∈ recognizedEventCodes ∧
    window_proc 1 WM_MOUSEMOVE 7 9 false (0, 0) = ⟨[], .zero⟩ :=
  ⟨by decide,
   window_proc_unregistered_returns_zero 1 7 9 WM_MOUSEMOVE (0, 0) (by decide)⟩

/-- Claim C3: applying any sequence of decoded events to a freshly created
window leaves the mouse position at the `(x, y)` of the last `MouseMoved`
event of the sequence, or at `(0, 0)` if there is none. -/
theorem process_messages_last_mouse_wins (events : List WindowEvent) :
    (process_messages Window.new events).mouse.pos =
      match lastMouseMoved events with
      | some (x, y) => ⟨x, y⟩
      | none => ⟨0, 0⟩ := by
  rw [process_messages_mouse_pos]
  cases lastMouseMoved events with
  | none => rfl
  | some p => cases p; rfl

/-- Claim C4: after any interleaving of events, the `left` flag equals the
state of the most recent Left-button event (Down = true, Up = false),
unchanged from its prior value if there is none — `lastButton .Left` ignores
Right-button and all other events — and symmetrically for `right`. -/
theorem process_messages_button_independence (events : List WindowEvent)
    (w : Window) :
    ((process_messages w events).mouse.left =
      match lastButton .Left events with
      | some .Down => true
      | some .Up => false
      | none => w.mouse.left) ∧
    ((process_messages w events).mouse.right =
      match lastButton .Right events with
      | some .Down => true
      | some .Up => false
      | none => w.mouse.right) :=
  ⟨process_messages_left events w, process_messages_right events w⟩

/-- Claim C5: the `WM_MOUSEMOVE` arm of `window_proc` reassembles `lparam`'s
little-endian bytes into x = the low unsigned 16 bits and y = the next 16
bits, and in particular `lparam = 0x00280014` decodes to
`MouseMoved {x := 20, y := 40}`. -/
theorem window_proc_mousemove_decode (handle wparam lparam : Nat)
    (rect : Nat × Nat) :
    ((window_proc handle WM_MOUSEMOVE wparam lparam true rect).sent =
      [.MouseMoved (lparam % 65536) (lparam / 65536 % 65536)]) ∧
    ((window_proc handle WM_MOUSEMOVE wparam 0x00280014 true rect).sent =
      [.MouseMoved 20 40]) := by
  constructor
  · rw [show (window_proc handle WM_MOUSEMOVE wparam lparam true rect).sent =
          [.MouseMoved (u16OfLeBytes (leByte lparam 0) (leByte lparam 1))
                       (u16OfLeBytes (leByte lparam 2) (leByte lparam 3))]
        from rfl]
    have hx : u16OfLeBytes (leByte lparam 0) (leByte lparam 1) =
        lparam % 65536 := by
      unfold u16OfLeBytes leByte; omega
    have hy : u16OfLeBytes (leByte lparam 2) (leByte lparam 3) =
        lparam / 65536 % 65536 := by
      unfold u16OfLeBytes leByte; omega
    rw [hx, hy]
  · rfl

/-- Claim C6: the `WM_SIZE` arm of `window_proc` emits a `WindowResized`
event carrying the freshly re-queried client rectangle, for every value of
both raw parameters (they are never decoded), and it does so for every
queried rectangle, a zero-area one included. -/
theorem window_proc_size_requery (handle wparam lparam : Nat)
    (rect : Nat × Nat) :
    (window_proc handle WM_SIZE wparam lparam true rect).sent =
      [.WindowResized rect.1 rect.2] := rfl

/-- Claim C7: every message code outside the recognized set is forwarded
unmodified — same handle, code and both parameters — to `DefWindowProcA`,
whose result becomes the procedure's result, and no event is sent. -/
theorem window_proc_unrecognized_forwarded
    (handle message wparam lparam : Nat) (ch : Bool) (rect : Nat × Nat)
    (h : message ∉ WM_CREATE :: recognizedEventCodes) :
    window_proc handle message wparam lparam ch rect =
      ⟨[], .defWindowProc handle message wparam lparam⟩ := by
  simp only [recognizedEventCodes, List.mem_cons, List.not_mem_nil,
    or_false] at h
  push_neg at h
  obtain ⟨h1, h2, h3, h4, h5, h6, h7⟩ := h
  simp [window_proc, h1, h2, h3, h4, h5, h6, h7]

/-- Witness for C7 at `WM_CLOSE` (code 0x0010). -/
theorem window_proc_unrecognized_forwarded_witness :
    (16 ∉ WM_CREATE :: recognizedEventCodes) ∧
    window_proc 5 16 7 9 true (2, 3) = ⟨[], .defWindowProc 5 16 7 9⟩ :=
  ⟨by decide, window_proc_unrecognized_forwarded 5 16 7 9 true (2, 3)
    (by decide)⟩

/-- Claim C8: `Registry.insert` followed immediately by `Registry.read` on
the same identifier returns the just-inserted state unchanged, and
`Registry.read` on an identifier never inserted signals `NotFound`. -/
theorem registry_insert_read_spec (r : Registry) (id : Nat) (s : Window)
    (r' : Registry) (id' : Nat) (h : id' ∉ Registry.ids r') :
    Registry.read (Registry.insert r id s) id = .ok s ∧
    Registry.read r' id' = .error .NotFound := by
  constructor
  · simp [Registry.read, Registry.insert]
  · induction r' with
    | nil => rfl
    | cons p rest ih =>
      simp only [Registry.ids, List.map_cons, List.mem_cons] at h
      push_neg at h
      obtain ⟨hne, hmem⟩ := h
      obtain ⟨i, s'⟩ := p
      rw [show Registry.read ((i, s') :: rest) id' =
            if i = id' then .ok s' else Registry.read rest id' from rfl,
          if_neg (by simpa using fun hc => hne hc.symm)]
      exact ih (by simpa [Registry.ids] using hmem)

/-- Witness for C8: inserting state for id 3 into the empty registry and
reading it back, and reading id 5 from the empty registry. -/
theorem registry_insert_read_spec_witness :
    (5 ∉ Registry.ids []) ∧
    (Registry.read (Registry.insert [] 3 Window.new) 3 = .ok Window.new ∧
     Registry.read [] 5 = .error .NotFound) :=
  ⟨by decide, registry_insert_read_spec [] 3 Window.new [] 5 (by decide)⟩

/-- Claim C9: no event-processing path of `process_messages` writes the
`minimized` flag, so after any sequence of events it still holds the
`false` that `Window::new` initialized it to. -/
theorem process_messages_minimized_invariant (events : List WindowEvent) :
    (process_messages Window.new events).minimized = false := by
  rw [process_messages_minimized]
  rfl

/-- Claim C10: processing a `MouseButtonChanged` event for the Middle, MB4
or MB5 button, for either button state, leaves the entire window state
unchanged. -/
theorem process_messages_other_buttons_noop (w : Window) (st : ButtonState) :
    process_messages w [.MouseButtonChanged .Middle st] = w ∧
    process_messages w [.MouseButtonChanged .MB4 st] = w ∧
    process_messages w [.MouseButtonChanged .MB5 st] = w := by
  cases st <;> exact ⟨rfl, rfl, rfl⟩

end Tkym
